import Mathlib

/-!
Verification of the Quick Clips Stream Deck plugin (clipboard-slot action).

The definitions below are a shallow embedding of the TypeScript source in
`src/actions/clipboard-slot.ts` (the current, fully documented revision of the
file, which also carries the empty-locked icon branch in `updateDisplay`).
Strings are modelled as Lean `String` / `List Char`; JavaScript string
truthiness (`if (s)`) is modelled explicitly; the asynchronous external calls
(clipboard read/write, paste simulation, persistence, display API) are
modelled as an effect trace, with a distinguished `threw` flag for a promise
rejection escaping the handler.
-/

namespace QuickClips

/-- JavaScript whitespace class `\s` restricted to the ASCII whitespace
characters (space, tab, newline, carriage return, vertical tab, form feed),
as matched by the regex `/\s+/g` in `generateLabel`. -/
def jsWs (c : Char) : Bool :=
  c = ' ' || c = '\t' || c = '\n' || c = '\r' || c = '\x0b' || c = '\x0c'

/-- `text.replace(/\s+/g, ' ')`: every maximal run of whitespace characters is
replaced by a single space. -/
def collapseWs : List Char → List Char
  | [] => []
  | [c] => if jsWs c then [' '] else [c]
  | c :: d :: cs =>
    if jsWs c && jsWs d then collapseWs (d :: cs)
    else (if jsWs c then ' ' else c) :: collapseWs (d :: cs)

/-- JavaScript `String.prototype.trim()`: strip leading and trailing
whitespace. -/
def trimWs (l : List Char) : List Char :=
  (((l.dropWhile jsWs).reverse).dropWhile jsWs).reverse

/-- `const cleanText = text.replace(/\s+/g, ' ').trim()` in `generateLabel`. -/
def cleanTextL (l : List Char) : List Char :=
  trimWs (collapseWs l)

/-- JavaScript `s.lastIndexOf(' ', k)`: the largest index `i ≤ k` (and
`i < s.length`) with `s[i] = ' '`; `none` plays the role of `-1`. -/
def lastSpaceLE (l : List Char) (k : Nat) : Option Nat :=
  (List.range (min (k + 1) l.length)).reverse.find? (fun i => l.getD i 'a' == ' ')

/-- The line-1 break point computation shared by the two multi-line branches of
`generateLabel`: `let breakPoint = cleanText.lastIndexOf(' ', 7);
if (breakPoint === -1 || breakPoint < 3) breakPoint = 7;`. -/
def breakPoint1 (clean : List Char) : Nat :=
  match lastSpaceLE clean 7 with
  | none => 7
  | some i => if i < 3 then 7 else i

/-- The line-2 truncation of the over-length branch of `generateLabel`:
if the remainder exceeds 6 characters, break at the last space at or before
index 6 when that position is `> 3`, else hard-truncate at 6. -/
def line2Of (remaining : List Char) : List Char :=
  if 6 < remaining.length then
    match lastSpaceLE remaining 6 with
    | some j => if 3 < j then trimWs (remaining.take j) else remaining.take 6
    | none => remaining.take 6
  else remaining

/-- `generateLabel` from `clipboard-slot.ts`, on character lists:
normalize whitespace, then return one line (length ≤ 7), two lines
(length ≤ 14, word-boundary break), or two lines with a trailing ellipsis. -/
def generateLabelL (l : List Char) : List Char :=
  let clean := cleanTextL l
  if clean.length ≤ 7 then
    clean
  else if clean.length ≤ 14 then
    let bp := breakPoint1 clean
    trimWs (clean.take bp) ++ '\n' :: trimWs (clean.drop bp)
  else
    let bp := breakPoint1 clean
    let line1 := trimWs (clean.take bp)
    let remaining := trimWs (clean.drop bp)
    line1 ++ '\n' :: (line2Of remaining ++ ['…'])

/-- `generateLabel` on Lean strings. -/
def generateLabel (s : String) : String :=
  String.mk (generateLabelL s.data)

/-- Split a character list at newline characters: the display lines of a
label. `charLines l` always has at least one element. -/
def charLines : List Char → List (List Char)
  | [] => [[]]
  | c :: cs =>
    let r := charLines cs
    if c = '\n' then [] :: r
    else
      match r with
      | [] => [[c]]
      | l :: ls => (c :: l) :: ls

/-- The persisted per-button settings object (`SlotSettings` in the source):
`value` is the stored clipboard text, `label` the cached display label,
`suppressClear` the prevent-clear flag (an absent field is falsy, modelled as
`false`). `extra` models any additional properties of the JavaScript settings
object, which every update in the source carries over via object spread
(`{ ...settings, ... }`). -/
structure SlotSettings where
  value : Option String
  label : Option String
  suppressClear : Bool
  extra : List (String × String)
deriving DecidableEq

/-- JavaScript truthiness of an optional string: `undefined` and `""` are
falsy, every other string is truthy (`if (settings.value)`,
`settings.label || "Stored"`). -/
def strTruthy : Option String → Bool
  | none => false
  | some s => !s.isEmpty

/-- One entry of the per-context `holdTrackers` map:
`hasTimer` records whether `timer` is a live timeout handle (`null` when
`suppressClear` was set at press time), `clearMode` is set by the timer
callback when the hold threshold elapses. -/
structure HoldTracker where
  hasTimer : Bool
  clearMode : Bool
deriving DecidableEq

/-- The `holdTrackers` map, keyed by action context id. -/
def Trackers := String → Option HoldTracker

/-- Outcome of the `pbcopy` spawn in `writeClipboard`: success, a spawn
`error` event (logged, then rejected), or a non-zero exit code (rejected
without logging). -/
inductive WriteOutcome where
  | ok
  | spawnError
  | exitError
deriving DecidableEq

/-- The external world as seen by one handler invocation: the text `pbpaste`
would produce, whether the read succeeds, the `pbcopy` outcome, and whether
the `osascript` paste simulation succeeds. -/
structure Env where
  clipboardText : String
  readOk : Bool
  writeOutcome : WriteOutcome
  pasteOk : Bool
deriving DecidableEq

/-- Observable effects of a handler: host display and persistence calls,
external clipboard/paste invocations, the success acknowledgment `showOk`,
and error-log lines. -/
inductive Effect where
  | setTitle (t : String)
  | setState (n : Nat)
  | setImage (p : Option String)
  | setSettings (s : SlotSettings)
  | readClipboard
  | writeClipboard (t : String)
  | simulatePaste
  | showOk
  | logError (m : String)
deriving DecidableEq

/-- `readClipboard`: run `pbpaste`; on failure log the error and return the
empty string. Never rejects. -/
def readClipboardRun (env : Env) : List Effect × String :=
  if env.readOk then ([Effect.readClipboard], env.clipboardText)
  else ([Effect.readClipboard, Effect.logError "Failed to read clipboard:"], "")

/-- `writeClipboard`: spawn `pbcopy`; on a spawn error log and reject, on a
non-zero exit code reject without logging. The `Bool` is `true` iff the
returned promise resolves. -/
def writeClipboardRun (env : Env) (t : String) : List Effect × Bool :=
  (Effect.writeClipboard t ::
     (if env.writeOutcome = WriteOutcome.spawnError
      then [Effect.logError "Failed to write clipboard:"] else []),
   env.writeOutcome = WriteOutcome.ok)

/-- `simulatePaste`: run the `osascript` keystroke; any error is caught and
logged inside the method, so it never rejects. -/
def simulatePasteRun (env : Env) : List Effect :=
  Effect.simulatePaste ::
    (if env.pasteOk then [] else [Effect.logError "Failed to simulate paste:"])

/-- `updateDisplay`: derive title, visual state and icon override from the
settings and emit them in that order. Matches the current revision of the
source, whose icon matrix covers all four content/lock combinations
(`locked.png` when filled and locked, `empty-locked.png` when empty and
locked, no override otherwise). -/
def updateDisplay (s : SlotSettings) : List Effect :=
  if strTruthy s.value then
    let title := if strTruthy s.label then s.label.getD "" else "Stored"
    let image := if s.suppressClear
      then some "imgs/actions/clipboard/locked.png" else none
    [Effect.setTitle title, Effect.setState 1, Effect.setImage image]
  else
    let image := if s.suppressClear
      then some "imgs/actions/clipboard/empty-locked.png" else none
    [Effect.setTitle "Empty", Effect.setState 0, Effect.setImage image]

/-- Result of one handler invocation: the effect trace in program order, the
argument of the `setSettings` call if one was made, and whether a rejection
escaped the handler. -/
structure HandlerResult where
  effects : List Effect
  newSettings : Option SlotSettings
  threw : Bool
deriving DecidableEq

/-- `handleClick`: on a truthy `value`, write it to the clipboard, simulate a
paste and show the OK indicator — but the un-caught `writeClipboard` rejection
aborts the handler on write failure. On a falsy `value`, read the clipboard;
a truthy result is captured (settings merged by spread, label regenerated,
persisted, display updated, OK shown), a falsy one is a silent no-op. -/
def handleClick (env : Env) (s : SlotSettings) : HandlerResult :=
  if strTruthy s.value then
    let w := writeClipboardRun env (s.value.getD "")
    if w.2 then
      { effects := w.1 ++ simulatePasteRun env ++ [Effect.showOk],
        newSettings := none, threw := false }
    else
      { effects := w.1, newSettings := none, threw := true }
  else
    let r := readClipboardRun env
    if r.2.isEmpty then
      { effects := r.1, newSettings := none, threw := false }
    else
      let ns : SlotSettings :=
        { s with value := some r.2, label := some (generateLabel r.2) }
      { effects := r.1 ++ Effect.setSettings ns :: updateDisplay ns
                     ++ [Effect.showOk],
        newSettings := some ns, threw := false }

/-- `handleClear`: spread the settings with `value` and `label` removed,
persist, update the display, show the OK indicator. -/
def handleClear (s : SlotSettings) : HandlerResult :=
  let ns : SlotSettings := { s with value := none, label := none }
  { effects := Effect.setSettings ns :: updateDisplay ns ++ [Effect.showOk],
    newSettings := some ns, threw := false }

/-- `onKeyDown`: cancel any stale timer for the context, then install a fresh
tracker — without a timer when `suppressClear` is set, with an armed
hold-to-clear timer otherwise. -/
def onKeyDown (m : Trackers) (cid : String) (s : SlotSettings) : Trackers :=
  let tr : HoldTracker :=
    if s.suppressClear then { hasTimer := false, clearMode := false }
    else { hasTimer := true, clearMode := false }
  fun c => if c = cid then some tr else m c

/-- The hold-threshold timer callback: only an armed timer can fire; it sets
`clearMode` and shows the hold indicator title. A tracker installed with
`timer: null` has no callback, so firing is a no-op on it. -/
def timerFire (tr : HoldTracker) : HoldTracker × List Effect :=
  if tr.hasTimer then
    ({ tr with clearMode := true }, [Effect.setTitle "Release\nto Clear"])
  else (tr, [])

/-- `n` timer-expiry opportunities during a press (modelling an arbitrarily
long hold). -/
def fireN : Nat → HoldTracker → HoldTracker × List Effect
  | 0, tr => (tr, [])
  | n + 1, tr =>
    let r := timerFire tr
    let r2 := fireN n r.1
    (r2.1, r.2 ++ r2.2)

/-- `onKeyUp`: no-op without a tracker; otherwise cancel the timer, run the
clear or click transition, and delete the tracker — the deletion is skipped
when the transition rejects, because the `await` throws past it. -/
def onKeyUp (m : Trackers) (cid : String) (env : Env) (s : SlotSettings) :
    Trackers × HandlerResult :=
  match m cid with
  | none => (m, { effects := [], newSettings := none, threw := false })
  | some tr =>
    let r := if tr.clearMode then handleClear s else handleClick env s
    if r.threw then (m, r)
    else ((fun c => if c = cid then none else m c), r)

/-- `onSendToPlugin`: on a `clearSlot` payload, spread the settings with
`value` and `label` removed, persist and update the display (no `showOk` is
issued on this path); any other payload is ignored. -/
def onSendToPlugin (eventName : String) (s : SlotSettings) : HandlerResult :=
  if eventName = "clearSlot" then
    let ns : SlotSettings := { s with value := none, label := none }
    { effects := Effect.setSettings ns :: updateDisplay ns,
      newSettings := some ns, threw := false }
  else
    { effects := [], newSettings := none, threw := false }

/-- The specified slot invariant: `label` is present iff `value` is, and is
the formatter's output for the current `value`. -/
def slotInv (s : SlotSettings) : Prop :=
  match s.value with
  | none => s.label = none
  | some v => s.label = some (generateLabel v)

instance (s : SlotSettings) : Decidable (slotInv s) := by
  unfold slotInv
  cases s.value <;> infer_instance

/-! ## Sanity checks of the embedding on concrete inputs -/

example : generateLabel "Hello" = "Hello" := by decide
example : generateLabel "Hello World" = "Hello\nWorld" := by decide
example : generateLabel "This is a very long text" = "This is\na very…" := by decide
example : generateLabel "abc defghijklm" = "abc\ndefghijklm" := by decide
example : generateLabel "\n" = "" := by decide

/-! ## Label formatter lemmas -/

theorem mem_collapseWs : ∀ (l : List Char), ∀ c ∈ collapseWs l, c = ' ' ∨ jsWs c = false
  | [] => by simp [collapseWs]
  | [a] => by
    intro c hc
    unfold collapseWs at hc
    by_cases h : jsWs a
    · simp [h] at hc
      exact Or.inl hc
    · simp [h] at hc
      exact Or.inr (hc ▸ (by simpa using h))
  | a :: b :: cs => by
    intro c hc
    unfold collapseWs at hc
    by_cases h : jsWs a && jsWs b
    · rw [if_pos h] at hc
      exact mem_collapseWs (b :: cs) c hc
    · rw [if_neg h] at hc
      rcases List.mem_cons.mp hc with hc1 | hc2
      · by_cases ha : jsWs a
        · exact Or.inl (by simpa [ha] using hc1)
        · exact Or.inr (by simp [ha] at hc1; exact hc1 ▸ (by simpa using ha))
      · exact mem_collapseWs (b :: cs) c hc2

theorem trimWs_subset (l : List Char) : trimWs l ⊆ l := by
  intro a ha
  unfold trimWs at ha
  rw [List.mem_reverse] at ha
  have h1 := (List.dropWhile_sublist jsWs).subset ha
  rw [List.mem_reverse] at h1
  exact (List.dropWhile_sublist jsWs).subset h1

theorem trimWs_length_le (l : List Char) : (trimWs l).length ≤ l.length := by
  unfold trimWs
  rw [List.length_reverse]
  have h1 := (List.dropWhile_sublist (l := (l.dropWhile jsWs).reverse) jsWs).length_le
  have h2 := (List.dropWhile_sublist (l := l) jsWs).length_le
  rw [List.length_reverse] at h1
  omega

theorem trimWs_cons_space (xs : List Char) : trimWs (' ' :: xs) = trimWs xs := by
  unfold trimWs
  rw [List.dropWhile_cons, if_pos (by decide : jsWs ' ' = true)]

theorem cleanTextL_no_newline (l : List Char) : '\n' ∉ cleanTextL l := by
  intro h
  have h2 := trimWs_subset _ h
  rcases mem_collapseWs l _ h2 with h3 | h3
  · exact absurd h3 (by decide)
  · exact absurd h3 (by decide)

theorem charLines_of_not_newline {l : List Char} (h : '\n' ∉ l) :
    charLines l = [l] := by
  induction l with
  | nil => rfl
  | cons c cs ih =>
    simp only [List.mem_cons, not_or] at h
    simp only [charLines]
    rw [if_neg (fun e => h.1 e.symm), ih h.2]

theorem charLines_append {l1 : List Char} (l2 : List Char) (h : '\n' ∉ l1) :
    charLines (l1 ++ '\n' :: l2) = l1 :: charLines l2 := by
  induction l1 with
  | nil => simp [charLines]
  | cons c cs ih =>
    simp only [List.mem_cons, not_or] at h
    simp only [List.cons_append, charLines]
    rw [if_neg (fun e => h.1 e.symm)]
    simp only [List.append_eq]
    rw [ih h.2]

theorem lastSpaceLE_spec {l : List Char} {k i : Nat}
    (h : lastSpaceLE l k = some i) :
    i ≤ k ∧ i < l.length ∧ l.getD i 'a' = ' ' := by
  unfold lastSpaceLE at h
  have h1 := List.find?_some h
  have h2 := List.mem_of_find?_eq_some h
  rw [List.mem_reverse] at h2
  have h3 := List.mem_range.mp h2
  have h4 := Nat.lt_min.mp h3
  exact ⟨by omega, h4.2, eq_of_beq h1⟩

theorem breakPoint1_le (clean : List Char) : breakPoint1 clean ≤ 7 := by
  unfold breakPoint1
  cases h : lastSpaceLE clean 7 with
  | none => simp
  | some i =>
    by_cases h3 : i < 3
    · simp [h3]
    · simp only [if_neg h3]
      exact (lastSpaceLE_spec h).1

theorem length_trimWs_take_le (l : List Char) (n : Nat) :
    (trimWs (l.take n)).length ≤ n := by
  have h1 := trimWs_length_le (l.take n)
  simp [List.length_take] at h1
  omega

theorem line2Of_length_le (r : List Char) : (line2Of r).length ≤ 6 := by
  unfold line2Of
  by_cases h6 : 6 < r.length
  · rw [if_pos h6]
    cases hs : lastSpaceLE r 6 with
    | none =>
      simp [List.length_take]
    | some j =>
      have hj := (lastSpaceLE_spec hs).1
      by_cases h3 : 3 < j
      · simp only [if_pos h3]
        exact le_trans (length_trimWs_take_le r j) hj
      · simp only [if_neg h3]
        simp [List.length_take]
  · rw [if_neg h6]
    omega

theorem line2Of_subset (r : List Char) : line2Of r ⊆ r := by
  unfold line2Of
  by_cases h6 : 6 < r.length
  · rw [if_pos h6]
    cases hs : lastSpaceLE r 6 with
    | none => exact List.take_subset _ _
    | some j =>
      by_cases h3 : 3 < j
      · simp only [if_pos h3]
        exact fun a ha => List.take_subset _ _ (trimWs_subset _ ha)
      · simp only [if_neg h3]
        exact List.take_subset _ _
  · rw [if_neg h6]
    exact fun a ha => ha

theorem length_trimWs_drop_bp_le {clean : List Char} (h14 : clean.length ≤ 14) :
    (trimWs (clean.drop (breakPoint1 clean))).length ≤ 10 := by
  cases hs : lastSpaceLE clean 7 with
  | none =>
    simp only [breakPoint1, hs]
    have h1 := trimWs_length_le (clean.drop 7)
    simp only [List.length_drop] at h1
    omega
  | some i =>
    obtain ⟨hik, hilen, hsp⟩ := lastSpaceLE_spec hs
    by_cases h3 : i < 3
    · simp only [breakPoint1, hs, if_pos h3]
      have h1 := trimWs_length_le (clean.drop 7)
      simp only [List.length_drop] at h1
      omega
    · simp only [breakPoint1, hs, if_neg h3]
      have hgd : clean[i] = ' ' := by
        rw [List.getD_eq_getElem?_getD, List.getElem?_eq_getElem hilen] at hsp
        simpa using hsp
      have hdrop : clean.drop i = ' ' :: clean.drop (i + 1) := by
        rw [List.drop_eq_getElem_cons hilen, hgd]
      rw [hdrop, trimWs_cons_space]
      have h1 := trimWs_length_le (clean.drop (i + 1))
      simp only [List.length_drop] at h1
      omega

theorem generateLabelL_eq_single {l : List Char}
    (h : (cleanTextL l).length ≤ 7) : generateLabelL l = cleanTextL l := by
  simp [generateLabelL, h]

theorem generateLabelL_eq_two {l : List Char}
    (h7 : ¬ (cleanTextL l).length ≤ 7) (h14 : (cleanTextL l).length ≤ 14) :
    generateLabelL l =
      trimWs ((cleanTextL l).take (breakPoint1 (cleanTextL l))) ++
        '\n' :: trimWs ((cleanTextL l).drop (breakPoint1 (cleanTextL l))) := by
  simp [generateLabelL, h7, h14]

theorem generateLabelL_eq_ellipsis {l : List Char}
    (h14 : ¬ (cleanTextL l).length ≤ 14) :
    generateLabelL l =
      trimWs ((cleanTextL l).take (breakPoint1 (cleanTextL l))) ++
        '\n' :: (line2Of (trimWs ((cleanTextL l).drop (breakPoint1 (cleanTextL l)))) ++ ['…']) := by
  have h7 : ¬ (cleanTextL l).length ≤ 7 := by omega
  simp [generateLabelL, h7, h14]

theorem no_newline_trimWs_take (l : List Char) (n : Nat) :
    '\n' ∉ trimWs ((cleanTextL l).take n) :=
  fun h => cleanTextL_no_newline l (List.take_subset _ _ (trimWs_subset _ h))

theorem no_newline_trimWs_drop (l : List Char) (n : Nat) :
    '\n' ∉ trimWs ((cleanTextL l).drop n) :=
  fun h => cleanTextL_no_newline l (List.drop_subset _ _ (trimWs_subset _ h))

/-! ## Claim C4 -/

/-- C4, counterexample: the claim that every line of the formatter's output
has at most 7 characters fails on the input `"abc defghijklm"`, whose
normalized form has length 14: the word-boundary break at index 3 leaves the
second line `defghijklm` with 10 characters. -/
theorem C4_counterexample :
    ∃ l ∈ charLines (generateLabel "abc defghijklm").data, 7 < l.length := by
  decide

set_option maxHeartbeats 1600000 in
/-- C4, amended: every line of the two-line display string returned by the
Label Formatter has at most 10 characters, and the first line has at most
`maxCharsPerLine = 7` characters. (The 7-character bound can be exceeded only
by the second line of the no-ellipsis two-line branch, when the normalized
input of length 8–14 is broken at a word boundary at index ≥ 3.) -/
theorem C4_amended (s : String) :
    (∀ l ∈ charLines (generateLabel s).data, l.length ≤ 10) ∧
    ((charLines (generateLabel s).data).headD []).length ≤ 7 := by
  have hdata : (generateLabel s).data = generateLabelL s.data := rfl
  rw [hdata]
  by_cases h7 : (cleanTextL s.data).length ≤ 7
  · rw [generateLabelL_eq_single h7,
      charLines_of_not_newline (cleanTextL_no_newline _)]
    constructor
    · intro l hl
      simp only [List.mem_singleton] at hl
      subst hl
      omega
    · simpa using h7
  · by_cases h14 : (cleanTextL s.data).length ≤ 14
    · rw [generateLabelL_eq_two h7 h14,
        charLines_append _ (no_newline_trimWs_take s.data _),
        charLines_of_not_newline (no_newline_trimWs_drop s.data _)]
      have hl1 : (trimWs ((cleanTextL s.data).take (breakPoint1 (cleanTextL s.data)))).length ≤ 7 :=
        le_trans (length_trimWs_take_le _ _) (breakPoint1_le _)
      have hl2 := length_trimWs_drop_bp_le h14
      constructor
      · intro l hl
        rcases List.mem_cons.mp hl with h | h
        · subst h; omega
        · rcases List.mem_singleton.mp h with h
          subst h; omega
      · simpa using hl1
    · rw [generateLabelL_eq_ellipsis h14,
        charLines_append _ (no_newline_trimWs_take s.data _)]
      have hno2 : '\n' ∉ line2Of (trimWs ((cleanTextL s.data).drop (breakPoint1 (cleanTextL s.data)))) ++ ['…'] := by
        intro h
        rcases List.mem_append.mp h with h | h
        · exact no_newline_trimWs_drop s.data _ (line2Of_subset _ h)
        · simp at h
      rw [charLines_of_not_newline hno2]
      have hl1 : (trimWs ((cleanTextL s.data).take (breakPoint1 (cleanTextL s.data)))).length ≤ 7 :=
        le_trans (length_trimWs_take_le _ _) (breakPoint1_le _)
      have hl2 : (line2Of (trimWs ((cleanTextL s.data).drop (breakPoint1 (cleanTextL s.data)))) ++ ['…']).length ≤ 7 := by
        rw [List.length_append]
        have := line2Of_length_le (trimWs ((cleanTextL s.data).drop (breakPoint1 (cleanTextL s.data))))
        simp only [List.length_singleton]
        omega
      constructor
      · intro l hl
        rcases List.mem_cons.mp hl with h | h
        · subst h; omega
        · rcases List.mem_singleton.mp h with h
          subst h; omega
      · simpa using hl1

/-! ## Claim C8 -/

/-- C8: for every input whose whitespace-normalized form is longer than 14
characters, the formatter returns exactly two lines, the second line ends in
the ellipsis character, and the total number of non-ellipsis characters
across the two lines is at most 14. -/
theorem C8_overlong_shape (s : String)
    (h : 14 < (cleanTextL s.data).length) :
    ∃ l1 l2, charLines (generateLabel s).data = [l1, l2] ∧
      l2.getLast? = some '…' ∧
      (l1.filter (fun c => c != '…')).length +
        (l2.filter (fun c => c != '…')).length ≤ 14 := by
  have h14 : ¬ (cleanTextL s.data).length ≤ 14 := by omega
  have hdata : (generateLabel s).data = generateLabelL s.data := rfl
  refine ⟨trimWs ((cleanTextL s.data).take (breakPoint1 (cleanTextL s.data))),
    line2Of (trimWs ((cleanTextL s.data).drop (breakPoint1 (cleanTextL s.data)))) ++ ['…'],
    ?_, ?_, ?_⟩
  · rw [hdata, generateLabelL_eq_ellipsis h14,
      charLines_append _ (no_newline_trimWs_take s.data _)]
    have hno2 : '\n' ∉ line2Of (trimWs ((cleanTextL s.data).drop (breakPoint1 (cleanTextL s.data)))) ++ ['…'] := by
      intro hm
      rcases List.mem_append.mp hm with hm | hm
      · exact no_newline_trimWs_drop s.data _ (line2Of_subset _ hm)
      · simp at hm
    rw [charLines_of_not_newline hno2]
  · exact List.getLast?_concat _
  · have hb1 : (List.filter (fun c => c != '…') (trimWs ((cleanTextL s.data).take (breakPoint1 (cleanTextL s.data))))).length ≤ 7 :=
      le_trans (List.length_filter_le _ _)
        (le_trans (length_trimWs_take_le _ _) (breakPoint1_le _))
    have hb2 : (List.filter (fun c => c != '…') (line2Of (trimWs ((cleanTextL s.data).drop (breakPoint1 (cleanTextL s.data)))) ++ ['…'])).length ≤ 6 := by
      rw [List.filter_append]
      have he : List.filter (fun c => c != '…') ['…'] = [] := by decide
      rw [he, List.append_nil]
      exact le_trans (List.length_filter_le _ _) (line2Of_length_le _)
    omega

/-- C8, witness: the formatter applied to `"This is a very long text"`
(normalized length 24 > 14) produces `"This is\na very…"`, which has the
claimed shape. -/
theorem C8_overlong_shape_witness :
    14 < (cleanTextL ("This is a very long text").data).length ∧
    (∃ l1 l2, charLines (generateLabel "This is a very long text").data = [l1, l2] ∧
      l2.getLast? = some '…' ∧
      (l1.filter (fun c => c != '…')).length +
        (l2.filter (fun c => c != '…')).length ≤ 14) ∧
    generateLabel "This is a very long text" = "This is\na very…" :=
  ⟨by decide, C8_overlong_shape _ (by decide), by decide⟩

/-! ## Claim C1 -/

/-- C1, counterexample: on a filled slot, when the `pbcopy` write fails, the
un-caught rejection of `writeClipboard` aborts `handleClick`: no success
acknowledgment is emitted and the paste simulation is never invoked, so the
acknowledgment is not emitted "even when the clipboard write fails". -/
theorem C1_counterexample :
    Effect.showOk ∉ (onKeyUp
      (fun c => if c = "ctx" then some { hasTimer := true, clearMode := false } else none)
      "ctx"
      { clipboardText := "", readOk := true,
        writeOutcome := WriteOutcome.spawnError, pasteOk := true }
      { value := some "hello", label := some "hello",
        suppressClear := false, extra := [] }).2.effects ∧
    (onKeyUp
      (fun c => if c = "ctx" then some { hasTimer := true, clearMode := false } else none)
      "ctx"
      { clipboardText := "", readOk := true,
        writeOutcome := WriteOutcome.spawnError, pasteOk := true }
      { value := some "hello", label := some "hello",
        suppressClear := false, extra := [] }).2.threw = true := by
  constructor
  · decide
  · decide

/-- C1, amended: for every release with a present tracker whose `clearMode`
is false on a slot with truthy `value`, the handler writes `value` to the
clipboard first, and the slot state is never modified. When the clipboard
write succeeds, it then invokes the paste simulation and emits exactly one
success acknowledgment, even when the paste simulation fails (its error is
logged and swallowed). When the clipboard write fails, however, the rejection
propagates out of the handler: the paste simulation is not invoked and no
acknowledgment is emitted. -/
theorem C1_amended (env : Env) (m : Trackers) (cid : String)
    (tr : HoldTracker) (s : SlotSettings) (hm : m cid = some tr)
    (hc : tr.clearMode = false) (hv : strTruthy s.value = true) :
    (onKeyUp m cid env s).2.newSettings = none ∧
    (env.writeOutcome = WriteOutcome.ok →
      (onKeyUp m cid env s).2.effects =
        Effect.writeClipboard (s.value.getD "") ::
          (simulatePasteRun env ++ [Effect.showOk]) ∧
      ((onKeyUp m cid env s).2.effects.count Effect.showOk = 1) ∧
      (onKeyUp m cid env s).2.threw = false) ∧
    (env.writeOutcome ≠ WriteOutcome.ok →
      Effect.showOk ∉ (onKeyUp m cid env s).2.effects ∧
      Effect.simulatePaste ∉ (onKeyUp m cid env s).2.effects ∧
      (onKeyUp m cid env s).2.threw = true) := by
  have hres : (onKeyUp m cid env s).2 = handleClick env s := by
    unfold onKeyUp
    rw [hm]
    simp only [hc, Bool.false_eq_true, if_false]
    split <;> rfl
  rw [hres]
  unfold handleClick
  rw [if_pos hv]
  unfold writeClipboardRun
  by_cases hw : env.writeOutcome = WriteOutcome.ok
  · have hw2 : (env.writeOutcome = WriteOutcome.spawnError) = False := by
      simp [hw]
    refine ⟨by simp [hw], fun _ => ?_, fun hne => absurd hw hne⟩
    simp only [hw2, decide_eq_true_eq, hw, if_pos, if_true]
    refine ⟨by simp, ?_, by simp⟩
    unfold simulatePasteRun
    cases hp : env.pasteOk <;> simp [List.count_cons, List.count_append]
  · refine ⟨?_, fun he => absurd he hw, fun _ => ?_⟩
    · simp [hw]
    · cases hsp : env.writeOutcome <;> simp_all

/-- C1 amended, witness: a quick click on a filled slot with a succeeding
clipboard write and a failing paste simulation still emits exactly one
success acknowledgment and does not throw. -/
theorem C1_amended_witness :
    ((fun c => if c = "w1" then some { hasTimer := true, clearMode := false } else none : Trackers) "w1"
        = some { hasTimer := true, clearMode := false }) ∧
    (onKeyUp
      (fun c => if c = "w1" then some { hasTimer := true, clearMode := false } else none)
      "w1"
      { clipboardText := "", readOk := true,
        writeOutcome := WriteOutcome.ok, pasteOk := false }
      { value := some "v", label := some "v",
        suppressClear := false, extra := [] }).2.effects.count Effect.showOk = 1 ∧
    (onKeyUp
      (fun c => if c = "w1" then some { hasTimer := true, clearMode := false } else none)
      "w1"
      { clipboardText := "", readOk := true,
        writeOutcome := WriteOutcome.ok, pasteOk := false }
      { value := some "v", label := some "v",
        suppressClear := false, extra := [] }).2.threw = false := by
  have h := C1_amended
    { clipboardText := "", readOk := true,
      writeOutcome := WriteOutcome.ok, pasteOk := false }
    (fun c => if c = "w1" then some { hasTimer := true, clearMode := false } else none)
    "w1" { hasTimer := true, clearMode := false }
    { value := some "v", label := some "v", suppressClear := false, extra := [] }
    (by decide) rfl (by decide)
  exact ⟨by decide, (h.2.1 rfl).2.1, (h.2.1 rfl).2.2⟩

/-! ## Claim C2 -/

/-- C2, counterexample: the explicit external clear path (`onSendToPlugin`
with a `clearSlot` payload) emits no success acknowledgment, unlike the
hold-to-clear path (`handleClear`), which ends with `showOk`. -/
theorem C2_counterexample :
    Effect.showOk ∉ (onSendToPlugin "clearSlot"
      { value := some "x", label := some "x",
        suppressClear := true, extra := [] }).effects ∧
    Effect.showOk ∈ (handleClear
      { value := some "x", label := some "x",
        suppressClear := true, extra := [] }).effects := by
  constructor
  · decide
  · decide

/-- C2, amended: for every `clearSlot` message on any slot (locked or not,
independent of any timer or tracker state), the controller unsets `value` and
`label`, persists the cleared settings, and updates the display exactly as
the hold-to-clear transition does — but it emits no success acknowledgment
(the hold-to-clear path additionally shows an OK indicator). -/
theorem C2_amended (s : SlotSettings) :
    (onSendToPlugin "clearSlot" s).newSettings =
      some { s with value := none, label := none } ∧
    Effect.setSettings { s with value := none, label := none }
      ∈ (onSendToPlugin "clearSlot" s).effects ∧
    Effect.setTitle "Empty" ∈ (onSendToPlugin "clearSlot" s).effects ∧
    (onSendToPlugin "clearSlot" s).effects =
      Effect.setSettings { s with value := none, label := none }
        :: updateDisplay { s with value := none, label := none } ∧
    Effect.showOk ∉ (onSendToPlugin "clearSlot" s).effects := by
  unfold onSendToPlugin
  rw [if_pos rfl]
  refine ⟨rfl, List.mem_cons_self _ _, ?_, rfl, ?_⟩
  · apply List.mem_cons_of_mem
    have hv : strTruthy ({ s with value := none, label := none } : SlotSettings).value = false := rfl
    simp [updateDisplay, hv]
  · intro hmem
    rcases List.mem_cons.mp hmem with h | h
    · exact Effect.noConfusion h
    · have hv : strTruthy ({ s with value := none, label := none } : SlotSettings).value = false := rfl
      simp [updateDisplay, hv] at h

/-! ## Claim C3 -/

/-- C3: on every display update, when `suppressClear` is true a locked
variant icon is selected for the current fill state (the filled lock icon
when `value` is truthy, the empty lock icon when it is not), and when
`suppressClear` is false the icon override is cleared (`setImage none`) so
the state's default icon shows. -/
theorem C3_icon_override (s : SlotSettings) :
    (s.suppressClear = true → strTruthy s.value = true →
      Effect.setImage (some "imgs/actions/clipboard/locked.png") ∈ updateDisplay s) ∧
    (s.suppressClear = true → strTruthy s.value = false →
      Effect.setImage (some "imgs/actions/clipboard/empty-locked.png") ∈ updateDisplay s) ∧
    (s.suppressClear = false → Effect.setImage none ∈ updateDisplay s) := by
  refine ⟨fun h1 h2 => ?_, fun h1 h2 => ?_, fun h1 => ?_⟩
  · simp [updateDisplay, h1, h2]
  · simp [updateDisplay, h1, h2]
  · cases hv : strTruthy s.value <;> simp [updateDisplay, h1, hv]

/-- C3, witness: the three icon-selection cases evaluated on concrete
settings. -/
theorem C3_icon_override_witness :
    Effect.setImage (some "imgs/actions/clipboard/locked.png") ∈
      updateDisplay { value := some "hi", label := some "hi",
                      suppressClear := true, extra := [] } ∧
    Effect.setImage (some "imgs/actions/clipboard/empty-locked.png") ∈
      updateDisplay { value := none, label := none,
                      suppressClear := true, extra := [] } ∧
    Effect.setImage none ∈
      updateDisplay { value := none, label := none,
                      suppressClear := false, extra := [] } :=
  ⟨(C3_icon_override _).1 rfl (by decide),
   (C3_icon_override _).2.1 rfl (by decide),
   (C3_icon_override _).2.2 rfl⟩

/-! ## Claim C9 -/

/-- C9: the Clear transition — both the hold-to-clear path (`handleClear`)
and the explicit external clear (`onSendToPlugin` with `clearSlot`) — unsets
only `value` and `label` and leaves `suppressClear` and every other persisted
property (carried by the object spread) unchanged. -/
theorem C9_clear_frame (s : SlotSettings) :
    (handleClear s).newSettings =
      some { value := none, label := none,
             suppressClear := s.suppressClear, extra := s.extra } ∧
    (onSendToPlugin "clearSlot" s).newSettings =
      some { value := none, label := none,
             suppressClear := s.suppressClear, extra := s.extra } := by
  constructor
  · rfl
  · unfold onSendToPlugin
    rw [if_pos rfl]

/-! ## Claim C7 -/

/-- C7, counterexample: a release on a filled slot whose clipboard write
fails leaves the tracker entry in the map — the rejection skips the
`holdTrackers.delete` call — contradicting "removes that tracker regardless
of outcome". -/
theorem C7_counterexample :
    (onKeyUp
      (fun c => if c = "c7" then some { hasTimer := true, clearMode := false } else none)
      "c7"
      { clipboardText := "", readOk := true,
        writeOutcome := WriteOutcome.exitError, pasteOk := true }
      { value := some "abc", label := some "abc",
        suppressClear := false, extra := [] }).1 "c7"
      = some { hasTimer := true, clearMode := false } := by
  decide

/-- C7, amended: on every release with a present tracker, the tracker is
removed from the map on the clear path, on the empty-click path (including a
failing clipboard read), and on the filled-click path when the clipboard
write succeeds (including a failing paste simulation); it is NOT removed
exactly when the filled-click clipboard write fails, whose rejection skips
the deletion (the dangling entry is overwritten by the next press). -/
theorem onKeyUp_unfold (m : Trackers) (cid : String) (env : Env)
    (s : SlotSettings) (tr : HoldTracker) (hm : m cid = some tr) :
    onKeyUp m cid env s =
      if (if tr.clearMode then handleClear s else handleClick env s).threw
      then (m, if tr.clearMode then handleClear s else handleClick env s)
      else ((fun c => if c = cid then none else m c),
            if tr.clearMode then handleClear s else handleClick env s) := by
  unfold onKeyUp
  rw [hm]

theorem C7_amended (m : Trackers) (cid : String) (env : Env)
    (s : SlotSettings) (tr : HoldTracker) (hm : m cid = some tr) :
    ((onKeyUp m cid env s).2.threw = true ↔
      tr.clearMode = false ∧ strTruthy s.value = true ∧
        env.writeOutcome ≠ WriteOutcome.ok) ∧
    ((onKeyUp m cid env s).2.threw = false → (onKeyUp m cid env s).1 cid = none) ∧
    ((onKeyUp m cid env s).2.threw = true → (onKeyUp m cid env s).1 cid = m cid) := by
  rw [onKeyUp_unfold m cid env s tr hm]
  by_cases hcm : tr.clearMode = true
  · rw [if_pos hcm]
    have hth : (handleClear s).threw = false := rfl
    simp [hth, hcm]
  · rw [if_neg hcm]
    have hcm2 : tr.clearMode = false := by
      revert hcm; cases tr.clearMode <;> simp
    cases hv : strTruthy s.value
    · have hth : (handleClick env s).threw = false := by
        unfold handleClick
        rw [if_neg (by simp [hv])]
        cases hr : (readClipboardRun env).2.isEmpty <;> simp [hr]
      simp [hth, hv, hcm2]
    · by_cases hw : env.writeOutcome = WriteOutcome.ok
      · have hth : (handleClick env s).threw = false := by
          unfold handleClick writeClipboardRun
          rw [if_pos hv]
          simp [hw]
        simp [hth, hv, hw, hcm2]
      · have hth : (handleClick env s).threw = true := by
          unfold handleClick writeClipboardRun
          rw [if_pos hv]
          simp [hw]
        simp [hth, hv, hw, hcm2]

/-- C7 amended, witness: a confirmed-hold release removes the tracker. -/
theorem C7_amended_witness :
    ((fun c => if c = "w7" then some { hasTimer := true, clearMode := true } else none : Trackers) "w7"
      = some { hasTimer := true, clearMode := true }) ∧
    (onKeyUp
      (fun c => if c = "w7" then some { hasTimer := true, clearMode := true } else none)
      "w7"
      { clipboardText := "", readOk := true,
        writeOutcome := WriteOutcome.ok, pasteOk := true }
      { value := some "x", label := some "x",
        suppressClear := false, extra := [] }).1 "w7" = none := by
  have h := C7_amended
    (fun c => if c = "w7" then some { hasTimer := true, clearMode := true } else none)
    "w7"
    { clipboardText := "", readOk := true,
      writeOutcome := WriteOutcome.ok, pasteOk := true }
    { value := some "x", label := some "x", suppressClear := false, extra := [] }
    { hasTimer := true, clearMode := true }
    (by decide)
  exact ⟨by decide, h.2.1 (by decide)⟩

/-! ## Claim C5 -/

/-- C5: the slot invariant — `label` present iff `value` present, and equal
to the formatter's output for `value` — is preserved by every Slot Controller
operation: click (capture and paste branches), hold-to-clear, and the
explicit external clear. -/
theorem C5_invariant (env : Env) (s : SlotSettings) (h : slotInv s) :
    slotInv (((handleClick env s).newSettings).getD s) ∧
    slotInv (((handleClear s).newSettings).getD s) ∧
    slotInv (((onSendToPlugin "clearSlot" s).newSettings).getD s) := by
  refine ⟨?_, ?_, ?_⟩
  · unfold handleClick
    by_cases hv : strTruthy s.value = true
    · rw [if_pos hv]
      by_cases hw : (writeClipboardRun env (s.value.getD "")).2 = true
      · rw [if_pos hw]; exact h
      · rw [if_neg hw]; exact h
    · rw [if_neg hv]
      by_cases hr : (readClipboardRun env).2.isEmpty = true
      · rw [if_pos hr]; exact h
      · rw [if_neg hr]
        show slotInv _
        unfold slotInv
        rfl
  · show slotInv _
    unfold slotInv
    rfl
  · unfold onSendToPlugin
    rw [if_pos rfl]
    show slotInv _
    unfold slotInv
    rfl

/-- C5, witness: the invariant holds on an empty slot and is preserved by a
capture click. -/
theorem C5_invariant_witness :
    slotInv { value := none, label := none, suppressClear := false, extra := [] } ∧
    slotInv (((handleClick
      { clipboardText := "hi", readOk := true,
        writeOutcome := WriteOutcome.ok, pasteOk := true }
      { value := none, label := none, suppressClear := false, extra := [] }).newSettings).getD
      { value := none, label := none, suppressClear := false, extra := [] }) :=
  ⟨by decide,
   (C5_invariant
     { clipboardText := "hi", readOk := true,
       writeOutcome := WriteOutcome.ok, pasteOk := true }
     { value := none, label := none, suppressClear := false, extra := [] }
     (by decide)).1⟩

/-! ## Claim C6 -/

/-- C6: a press on a slot whose `suppressClear` is true installs a tracker
with no armed timer; no number of timer-expiry opportunities produces any
effect (in particular the hold-indicator title "Release\nto Clear" is never
shown and `clearMode` stays false); and the release performs the normal
Click transition (`handleClick`), never the Clear transition. -/
theorem C6_locked_press (m : Trackers) (cid : String) (s : SlotSettings)
    (n : Nat) (env : Env) (h : s.suppressClear = true) :
    onKeyDown m cid s cid = some { hasTimer := false, clearMode := false } ∧
    fireN n { hasTimer := false, clearMode := false } =
      ({ hasTimer := false, clearMode := false }, []) ∧
    (onKeyUp (onKeyDown m cid s) cid env s).2 = handleClick env s := by
  have h1 : onKeyDown m cid s cid = some { hasTimer := false, clearMode := false } := by
    unfold onKeyDown
    simp [h]
  refine ⟨h1, ?_, ?_⟩
  · induction n with
    | zero => rfl
    | succ k ih =>
      simp only [fireN, timerFire]
      simp [ih]
  · unfold onKeyUp
    rw [h1]
    have hcm : ({ hasTimer := false, clearMode := false } : HoldTracker).clearMode = false := rfl
    simp only [hcm, Bool.false_eq_true, if_false]
    split <;> rfl

/-- C6, witness: a locked filled slot, pressed with five timer-expiry
opportunities, still results in a plain click on release. -/
theorem C6_locked_press_witness :
    ({ value := some "t", label := some "t",
       suppressClear := true, extra := [] } : SlotSettings).suppressClear = true ∧
    fireN 5 { hasTimer := false, clearMode := false } =
      ({ hasTimer := false, clearMode := false }, []) ∧
    (onKeyUp (onKeyDown (fun _ => none) "c6"
        { value := some "t", label := some "t", suppressClear := true, extra := [] })
      "c6"
      { clipboardText := "", readOk := true,
        writeOutcome := WriteOutcome.ok, pasteOk := true }
      { value := some "t", label := some "t", suppressClear := true, extra := [] }).2
      = handleClick
          { clipboardText := "", readOk := true,
            writeOutcome := WriteOutcome.ok, pasteOk := true }
          { value := some "t", label := some "t", suppressClear := true, extra := [] } := by
  have h := C6_locked_press (fun _ => none) "c6"
    { value := some "t", label := some "t", suppressClear := true, extra := [] } 5
    { clipboardText := "", readOk := true,
      writeOutcome := WriteOutcome.ok, pasteOk := true } rfl
  exact ⟨rfl, h.2.1, h.2.2⟩

/-! ## Claim C10 -/

theorem mem_collapseWs_mem : ∀ (l : List Char), ∀ c ∈ collapseWs l, c = ' ' ∨ c ∈ l
  | [] => by simp [collapseWs]
  | [a] => by
    intro c hc
    unfold collapseWs at hc
    by_cases h : jsWs a
    · simp [h] at hc
      exact Or.inl hc
    · simp [h] at hc
      exact Or.inr (by simp [hc])
  | a :: b :: cs => by
    intro c hc
    unfold collapseWs at hc
    by_cases h : jsWs a && jsWs b
    · rw [if_pos h] at hc
      rcases mem_collapseWs_mem (b :: cs) c hc with h1 | h1
      · exact Or.inl h1
      · exact Or.inr (List.mem_cons_of_mem _ h1)
    · rw [if_neg h] at hc
      rcases List.mem_cons.mp hc with hc1 | hc2
      · by_cases ha : jsWs a
        · exact Or.inl (by simpa [ha] using hc1)
        · simp [ha] at hc1
          exact Or.inr (by simp [hc1])
      · rcases mem_collapseWs_mem (b :: cs) c hc2 with h1 | h1
        · exact Or.inl h1
        · exact Or.inr (List.mem_cons_of_mem _ h1)

theorem cleanTextL_of_allWs {l : List Char} (hws : ∀ c ∈ l, jsWs c = true) :
    cleanTextL l = [] := by
  have hcol : ∀ c ∈ collapseWs l, jsWs c = true := by
    intro c hc
    rcases mem_collapseWs_mem l c hc with h1 | h1
    · subst h1; decide
    · exact hws c h1
  unfold cleanTextL trimWs
  rw [List.dropWhile_eq_nil_iff.mpr hcol]
  rfl

/-- C10: a click on an empty slot when the clipboard read returns a
non-empty all-whitespace string still captures: `value` is set to the raw
string verbatim, `label` to the formatter's output for it — the empty
string — a single success acknowledgment is emitted, and the display update
shows the fallback title "Stored" instead of the empty label. -/
theorem C10_whitespace_capture (env : Env) (s : SlotSettings) (t : String)
    (hread : env.readOk = true) (htext : env.clipboardText = t)
    (hne : t.isEmpty = false) (hws : ∀ c ∈ t.data, jsWs c = true)
    (hempty : strTruthy s.value = false) :
    (handleClick env s).newSettings =
      some { s with value := some t, label := some "" } ∧
    generateLabel t = "" ∧
    (handleClick env s).effects.count Effect.showOk = 1 ∧
    Effect.setTitle "Stored" ∈ (handleClick env s).effects := by
  have hlab : generateLabel t = "" := by
    unfold generateLabel generateLabelL
    rw [cleanTextL_of_allWs hws]
    rfl
  have hrr : readClipboardRun env = ([Effect.readClipboard], t) := by
    unfold readClipboardRun
    rw [if_pos hread, htext]
  have hcl : handleClick env s =
      { effects := [Effect.readClipboard] ++
          Effect.setSettings { s with value := some t, label := some "" }
            :: updateDisplay { s with value := some t, label := some "" }
          ++ [Effect.showOk],
        newSettings := some { s with value := some t, label := some "" },
        threw := false } := by
    unfold handleClick
    rw [if_neg (by simp [hempty]), hrr]
    simp only []
    rw [if_neg (by simp [hne]), hlab]
  rw [hcl]
  have hud : updateDisplay { s with value := some t, label := some "" } =
      [Effect.setTitle "Stored", Effect.setState 1,
       Effect.setImage (if s.suppressClear
         then some "imgs/actions/clipboard/locked.png" else none)] := by
    unfold updateDisplay
    rw [if_pos (by simp [strTruthy, hne])]
    rfl
  refine ⟨rfl, hlab, ?_, ?_⟩
  · rw [hud]
    simp [List.count_cons, List.count_append]
  · rw [hud]
    simp

/-- C10, witness: capturing the clipboard string `"\n"` on an empty slot. -/
theorem C10_whitespace_capture_witness :
    ("\n" : String).isEmpty = false ∧
    (∀ c ∈ ("\n" : String).data, jsWs c = true) ∧
    (handleClick
      { clipboardText := "\n", readOk := true,
        writeOutcome := WriteOutcome.ok, pasteOk := true }
      { value := none, label := none, suppressClear := false, extra := [] }).newSettings =
      some { value := some "\n", label := some "",
             suppressClear := false, extra := [] } ∧
    generateLabel "\n" = "" :=
  ⟨by decide, by decide,
   (C10_whitespace_capture
     { clipboardText := "\n", readOk := true,
       writeOutcome := WriteOutcome.ok, pasteOk := true }
     { value := none, label := none, suppressClear := false, extra := [] }
     "\n" rfl rfl (by decide) (by decide) (by decide)).1,
   (C10_whitespace_capture
     { clipboardText := "\n", readOk := true,
       writeOutcome := WriteOutcome.ok, pasteOk := true }
     { value := none, label := none, suppressClear := false, extra := [] }
     "\n" rfl rfl (by decide) (by decide) (by decide)).2.1⟩

end QuickClips
